import Mathlib

/-!
Verification of the packing-schedule MILP formulation engine
(`BennyLassen/packing-schedule-example`).

The repository formulates a production-scheduling problem as a
mixed-integer linear program using pyomo.  This file gives a shallow
embedding of the parts of the formulation relevant to the testable
properties of the specification: the OTIF (On-Time-In-Full) lateness
constraints, the assignment and line-capacity constraints, the WIP
inventory balance and production-timing constraints, the parameter
binder, the Big-M parameters, the package import structure of the
`packing_model_simple` variant, and the result dictionary computed by
the two `solve` methods.

Variable values of a feasible MILP solution are modelled by plain
functions (`ℕ`-valued for variables declared Binary or
NonNegativeIntegers, `ℚ`-valued parameters where the source casts to
float); each pyomo constraint rule becomes a proposition, and a
"feasible solution" is a solution satisfying every constraint rule
together with the declared variable domains and bounds.  Index sets
are `Finset.Icc 1 n`, matching `pyo.RangeSet(1, n)`.
-/

namespace PackingSchedule

/-! ### OTIF constraints

Embedding of `src/project1/src/packing_model/constraints/otif.py`
(`add_otif_constraints`, the variant in which the lateness / late
indicator constraints are active; in
`src/packing_model_simple/constraints/otif.py` the same four
constraints appear but are commented out) together with the variable
domains of `src/project1/src/packing_model/variables.py`:
`late` is Binary, `lateness` and `early` are NonNegativeIntegers,
`time_completion` is a NonNegativeInteger with bounds
`(1, n_timeslots)`, and `due(i)` is an integer parameter.

The per-order data is scalar, so we model one order's slice of a
feasible solution directly.
-/

/-- One order's OTIF-related values in a solution, together with the
model data it was built from: the horizon length `T = n_timeslots` and
the order's due date. -/
structure OtifSol where
  T : ℤ
  due : ℤ
  completion : ℤ
  lateness : ℤ
  early : ℤ
  late : ℤ

/-- Feasibility of one order's OTIF slice: the variable domains
declared in `variables.py` and the six constraint rules of
`add_otif_constraints` (the start-time and completion-time equations
are treated separately, see `StartTimeEq`/`CompletionTimeEq`). -/
def OtifFeasible (s : OtifSol) : Prop :=
  -- domain of `late` (Binary)
  (s.late = 0 ∨ s.late = 1) ∧
  -- domain of `lateness` (NonNegativeIntegers)
  0 ≤ s.lateness ∧
  -- domain of `early` (NonNegativeIntegers)
  0 ≤ s.early ∧
  -- bounds (1, n_timeslots) on `time_completion`
  (1 ≤ s.completion ∧ s.completion ≤ s.T) ∧
  -- lateness_lower_rule: lateness[i] >= time_completion[i] - due[i]
  s.completion - s.due ≤ s.lateness ∧
  -- early_lower_rule: early[i] >= due[i] - time_completion[i]
  s.due - s.completion ≤ s.early ∧
  -- late_indicator_upper_rule: lateness[i] <= n_timeslots * late[i]
  s.lateness ≤ s.T * s.late ∧
  -- late_indicator_lower_rule:
  -- time_completion[i] >= due[i] - n_timeslots * (1 - late[i])
  s.due - s.T * (1 - s.late) ≤ s.completion

/-- The property asserted by the specification for the OTIF block:
`late = 1` iff `lateness > 0`, and `lateness = max(0, completion - due)`. -/
def OtifSpecClaim (s : OtifSol) : Prop :=
  (s.late = 1 ↔ 0 < s.lateness) ∧ s.lateness = max 0 (s.completion - s.due)

instance (s : OtifSol) : Decidable (OtifFeasible s) := by
  unfold OtifFeasible; infer_instance

instance (s : OtifSol) : Decidable (OtifSpecClaim s) := by
  unfold OtifSpecClaim; infer_instance

/-- A feasible point with `late = 1`, `completion = due` and
`lateness = 0`: the solver may mark an on-time order late. -/
def otifSlack1 : OtifSol :=
  { T := 10, due := 5, completion := 5, lateness := 0, early := 0, late := 1 }

/-- A feasible point with `lateness = 7` although `completion = due`:
feasibility alone does not pin `lateness` to `max (0, completion - due)`. -/
def otifSlack2 : OtifSol :=
  { T := 10, due := 5, completion := 5, lateness := 7, early := 0, late := 1 }

/-! ### Assignment, capacity, and timing constraints

Embedding of the worker-free variant: the assignment variable
`x(i,j,t)` of `src/packing_model_simple/variables.py` is Binary, the
line-in-use indicator `u(j)` is Binary, and the processing-time
parameter `p(i,j)` is a float (`src/packing_model_simple/parameters.py`
casts with `float(...)`), modelled as `ℚ`.  Binary variable values are
`ℕ`-valued functions constrained to be `≤ 1`.

Index sets: `ORDERS = RangeSet(1, n_orders)`,
`LINES = RangeSet(1, n_lines)`, `TIME = RangeSet(1, n_timeslots)`. -/

/-- `RangeSet(1, n)`. -/
def rng (n : ℕ) : Finset ℕ := Finset.Icc 1 n

/-- A variable family is binary when every value is `0` or `1`
(values are `ℕ`, so `≤ 1`). -/
def IsBinary3 (x : ℕ → ℕ → ℕ → ℕ) : Prop :=
  ∀ i j t, x i j t ≤ 1

/-- `one_assignment_rule` of
`src/simple_model/packing_model_problem_4_1/constraints/assignment.py`:
`sum(m.x[i, j, t] for j in m.LINES for t in m.TIME) == 1` for every
order `i`. -/
def OneAssignment (nLines nTime : ℕ) (x : ℕ → ℕ → ℕ → ℕ) (i : ℕ) : Prop :=
  ∑ j ∈ rng nLines, ∑ t ∈ rng nTime, x i j t = 1

instance (nLines nTime : ℕ) (x : ℕ → ℕ → ℕ → ℕ) (i : ℕ) :
    Decidable (OneAssignment nLines nTime x i) := by
  unfold OneAssignment; infer_instance

/-- The set of `(line, start-time)` pairs an order is assigned to. -/
def assignedPairs (nLines nTime : ℕ) (x : ℕ → ℕ → ℕ → ℕ) (i : ℕ) :
    Finset (ℕ × ℕ) :=
  ((rng nLines) ×ˢ (rng nTime)).filter fun q => x i q.1 q.2 = 1

/-- The summand of `line_capacity_rule` in
`src/packing_model_simple/constraints/capacity.py`: order `i` started
at `t` occupies line `j` at instant `tau` when
`t <= tau and tau < t + m.p[i, j]`. -/
def covers (p : ℕ → ℕ → ℚ) (i j t tau : ℕ) : Prop :=
  t ≤ tau ∧ (tau : ℚ) < t + p i j

instance (p : ℕ → ℕ → ℚ) (i j t tau : ℕ) : Decidable (covers p i j t tau) :=
  inferInstanceAs (Decidable (_ ∧ _))

/-- `line_capacity_rule` of
`src/packing_model_simple/constraints/capacity.py`: for line `j` and
instant `tau`, the sum of `x[i,j,t]` over orders `i` and start times
`t` with `t <= tau < t + p(i,j)` is at most `u(j)`. -/
def LineCapacity (nOrders nTime : ℕ) (p : ℕ → ℕ → ℚ) (x : ℕ → ℕ → ℕ → ℕ)
    (u : ℕ → ℕ) (j tau : ℕ) : Prop :=
  ∑ i ∈ rng nOrders, ∑ t ∈ (rng nTime).filter (fun t => covers p i j t tau),
      x i j t ≤ u j

instance (nOrders nTime : ℕ) (p : ℕ → ℕ → ℚ) (x : ℕ → ℕ → ℕ → ℕ)
    (u : ℕ → ℕ) (j tau : ℕ) :
    Decidable (LineCapacity nOrders nTime p x u j tau) := by
  unfold LineCapacity; infer_instance

/-- The orders whose scheduled interval covers instant `tau` on line
`j`: some assigned start time `t` has `t ≤ tau < t + p(i,j)`. -/
def coveringOrders (nOrders nTime : ℕ) (p : ℕ → ℕ → ℚ)
    (x : ℕ → ℕ → ℕ → ℕ) (j tau : ℕ) : Finset ℕ :=
  (rng nOrders).filter fun i =>
    ∃ t ∈ rng nTime, x i j t = 1 ∧ covers p i j t tau

/-- `start_time_rule` of
`src/packing_model_simple/constraints/otif.py`:
`timestart(i) = Σ_j Σ_t t · x(i,j,t)`. -/
def StartTimeEq (nLines nTime : ℕ) (x : ℕ → ℕ → ℕ → ℕ)
    (timestart : ℕ → ℕ) (i : ℕ) : Prop :=
  (timestart i : ℚ) = ∑ j ∈ rng nLines, ∑ t ∈ rng nTime, (t : ℚ) * x i j t

instance (nLines nTime : ℕ) (x : ℕ → ℕ → ℕ → ℕ) (timestart : ℕ → ℕ)
    (i : ℕ) : Decidable (StartTimeEq nLines nTime x timestart i) := by
  unfold StartTimeEq; infer_instance

/-- `completion_time_rule` of
`src/packing_model_simple/constraints/otif.py`:
`timecompletion(i) = Σ_j Σ_t (t + p(i,j)) · x(i,j,t)`. -/
def CompletionTimeEq (nLines nTime : ℕ) (p : ℕ → ℕ → ℚ)
    (x : ℕ → ℕ → ℕ → ℕ) (timecompletion : ℕ → ℕ) (i : ℕ) : Prop :=
  (timecompletion i : ℚ) =
    ∑ j ∈ rng nLines, ∑ t ∈ rng nTime, ((t : ℚ) + p i j) * x i j t

instance (nLines nTime : ℕ) (p : ℕ → ℕ → ℚ) (x : ℕ → ℕ → ℕ → ℕ)
    (timecompletion : ℕ → ℕ) (i : ℕ) :
    Decidable (CompletionTimeEq nLines nTime p x timecompletion i) := by
  unfold CompletionTimeEq; infer_instance

/-! ### WIP / inventory constraints

Embedding of `src/packing_model_simple/constraints/wip.py`.  The
variables `prod(i,t)`, `inv(i,t)` are NonNegativeIntegers and
`ship(i,t)` is Binary (`src/packing_model_simple/variables.py`), so
all are `ℕ`-valued; `inv` is indexed over `TIME_WITH_ZERO =
RangeSet(0, n_timeslots)`.  The production rule indexes `x` at
`t - int(m.p[i, j])`; `int()` truncation of the non-negative float
`p(i,j)` is `⌊p(i,j)⌋` and the guard `t - int(p) >= 1` on Python
integers is `⌊p⌋ + 1 ≤ t` for `t, ⌊p⌋ ≥ 0`, in which case the Python
difference `t - int(p)` agrees with truncated subtraction on `ℕ`. -/

/-- `int(m.p[i, j])` for the non-negative float parameter `p`. -/
def pInt (p : ℕ → ℕ → ℚ) (i j : ℕ) : ℕ := (p i j).floor.toNat

/-- The right-hand side of `production_rule` of
`src/packing_model_simple/constraints/wip.py`:
`sum(m.x[i, j, t - int(m.p[i, j])] for j in m.LINES
     if t - int(m.p[i, j]) >= 1)`. -/
def prodRHS (nLines : ℕ) (p : ℕ → ℕ → ℚ) (x : ℕ → ℕ → ℕ → ℕ)
    (i t : ℕ) : ℕ :=
  ∑ j ∈ (rng nLines).filter (fun j => pInt p i j + 1 ≤ t),
      x i j (t - pInt p i j)

/-- `production_rule`: `prod(i,t)` equals `prodRHS`. -/
def ProductionEq (nLines : ℕ) (p : ℕ → ℕ → ℚ) (x : ℕ → ℕ → ℕ → ℕ)
    (prod : ℕ → ℕ → ℕ) (i t : ℕ) : Prop :=
  prod i t = prodRHS nLines p x i t

/-- `inventory_balance_rule` of
`src/packing_model_simple/constraints/wip.py`:
`inv(i,t) = inv(i,t-1) + prod(i,t) - ship(i,t)` (an equation over the
solver's integers, stated in `ℤ`). -/
def InventoryBalance (inv prod ship : ℕ → ℕ → ℕ) (i t : ℕ) : Prop :=
  (inv i t : ℤ) = inv i (t - 1) + prod i t - ship i t

/-- `initial_inventory_rule`: `inv(i,0) = inv0(i)`. -/
def InitialInventory (inv : ℕ → ℕ → ℕ) (inv0 : ℕ → ℕ) (i : ℕ) : Prop :=
  inv i 0 = inv0 i

/-- The WIP block of a feasible solution for order `i`: the inventory
balance holds at every `t ∈ TIME = RangeSet(1, n_timeslots)` and the
series is seeded at `t = 0` (non-negativity of `inv` is the
NonNegativeIntegers domain, carried by the `ℕ` codomain). -/
def WipFeasible (nTime : ℕ) (inv prod ship : ℕ → ℕ → ℕ) (inv0 : ℕ → ℕ)
    (i : ℕ) : Prop :=
  InitialInventory inv inv0 i ∧
  ∀ t ∈ rng nTime, InventoryBalance inv prod ship i t

instance (nTime : ℕ) (inv prod ship : ℕ → ℕ → ℕ) (inv0 : ℕ → ℕ) (i : ℕ) :
    Decidable (WipFeasible nTime inv prod ship inv0 i) := by
  unfold WipFeasible InitialInventory InventoryBalance; infer_instance

/-! ### Parameter binder

Embedding of `define_parameters` in
`src/packing_model_simple/parameters.py`.  The binder performs no
shape validation: each `pyo.Param` is populated by an `initialize`
lambda that indexes the raw numpy arrays (`processing_time[i-1, j-1]`,
`setup_time[i-1, k-1, j-1]`, `initial_inventory[i-1]`, `due_date[i-1]`,
`priority[i-1]`) once for every element of the parameter's index set.
An out-of-bounds access raises numpy's `IndexError`; nothing in the
function can raise a `DimensionMismatch`-style error.  Arrays are
modelled as (nested) lists and a numpy index access as a bounds-checked
list read. -/

/-- Errors that model construction could surface.  `dimensionMismatch`
exists so the specification's claimed behaviour is statable; the
binder itself can only produce `indexError`. -/
inductive ParamError where
  | indexError : ParamError
  | dimensionMismatch : ParamError
deriving DecidableEq, Repr

/-- Raw input data consumed by `define_parameters` (the array-shaped
fields; scalars are kept as given). -/
structure InputData where
  n_orders : ℕ
  n_lines : ℕ
  n_timeslots : ℕ
  n_workers : ℕ
  processing_time : List (List ℚ)
  setup_time : List (List (List ℚ))
  initial_inventory : List ℚ
  reserved_capacity : ℚ
  due_date : List ℚ
  priority : List ℚ

/-- The materialised parameter tables produced by a successful
`define_parameters` call. -/
structure Params where
  p : List (List ℚ)
  s : List (List (List ℚ))
  inv0 : List ℚ
  alpha : ℚ
  due : List ℚ
  priority : List ℚ
  M : ℚ
deriving DecidableEq, Repr

/-- Run a bounds-checked read for every index in the list, failing with
`indexError` on the first out-of-bounds access (the order in which
pyomo evaluates the `initialize` lambdas). -/
def seqReads {α : Type} (f : ℕ → Except ParamError α) :
    List ℕ → Except ParamError (List α)
  | [] => .ok []
  | i :: is =>
      match f i with
      | .error e => .error e
      | .ok a =>
          match seqReads f is with
          | .error e => .error e
          | .ok as => .ok (a :: as)

/-- Read entries `0..m-1` of a row, i.e. the accesses `row[j-1]` for
`j ∈ RangeSet(1, m)`. -/
def readRow (row : List ℚ) (m : ℕ) : Except ParamError (List ℚ) :=
  if m ≤ row.length then .ok (row.take m) else .error .indexError

/-- The reads performed when a parameter indexed by a 1-dimensional
`RangeSet(1, n)` is initialised from array `arr`
(`arr[i-1]` for `i = 1..n`). -/
def reads1 (arr : List ℚ) (n : ℕ) : Except ParamError (List ℚ) :=
  readRow arr n

/-- The reads performed when a parameter indexed by
`RangeSet(1, n) × RangeSet(1, m)` is initialised from the 2-d array
`arr` (`arr[i-1, j-1]` for each index pair).  When `m = 0` the index
set is empty and no access happens at all. -/
def reads2 (arr : List (List ℚ)) (n m : ℕ) :
    Except ParamError (List (List ℚ)) :=
  if m = 0 then .ok [] else
    seqReads (fun i =>
      match arr.get? i with
      | none => .error .indexError
      | some row => readRow row m) (List.range n)

/-- The reads performed for a 3-d indexed parameter
(`arr[i-1, k-1, j-1]`); with any trailing dimension empty the index
set is empty and nothing is accessed. -/
def reads3 (arr : List (List (List ℚ))) (n k m : ℕ) :
    Except ParamError (List (List (List ℚ))) :=
  if k = 0 ∨ m = 0 then .ok [] else
    seqReads (fun i =>
      match arr.get? i with
      | none => .error .indexError
      | some sub => reads2 sub k m) (List.range n)

/-- `define_parameters` of `src/packing_model_simple/parameters.py`:
bind `p`, `s`, `inv0`, `alpha`, `due`, `priority` and the Big-M
parameter, in source order.  The Big-M is the literal
`initialize=10000`; no shape check is ever made. -/
def define_parameters (d : InputData) : Except ParamError Params :=
  match reads2 d.processing_time d.n_orders d.n_lines with
  | .error e => .error e
  | .ok p =>
    match reads3 d.setup_time d.n_orders d.n_orders d.n_lines with
    | .error e => .error e
    | .ok s =>
      match reads1 d.initial_inventory d.n_orders with
      | .error e => .error e
      | .ok inv0 =>
        match reads1 d.due_date d.n_orders with
        | .error e => .error e
        | .ok due =>
          match reads1 d.priority d.n_orders with
          | .error e => .error e
          | .ok prio =>
              .ok { p := p, s := s, inv0 := inv0,
                    alpha := d.reserved_capacity,
                    due := due, priority := prio, M := 10000 }

/-- "Array shapes agree with the declared counts": every array has
exactly the documented shape
(`processing_time : [n_orders, n_lines]`,
`setup_time : [n_orders, n_orders, n_lines]`, the four vectors of
length `n_orders`). -/
def shapesOk (d : InputData) : Prop :=
  d.processing_time.length = d.n_orders ∧
  (∀ row ∈ d.processing_time, row.length = d.n_lines) ∧
  d.setup_time.length = d.n_orders ∧
  (∀ sub ∈ d.setup_time, sub.length = d.n_orders ∧
    ∀ row ∈ sub, row.length = d.n_lines) ∧
  d.initial_inventory.length = d.n_orders ∧
  d.due_date.length = d.n_orders ∧
  d.priority.length = d.n_orders

instance (d : InputData) : Decidable (shapesOk d) := by
  unfold shapesOk; infer_instance

/-- An input with `n_orders = 1`, `n_lines = 1` whose arrays are all
one row/column too large in every data dimension: shapes disagree with
the declared counts. -/
def oversizedData : InputData :=
  { n_orders := 1, n_lines := 1, n_timeslots := 4, n_workers := 1
    processing_time := [[2, 2], [2, 2]]
    setup_time := [[[1, 1], [1, 1]], [[1, 1], [1, 1]]]
    initial_inventory := [0, 0]
    reserved_capacity := 0
    due_date := [3, 3]
    priority := [1, 1] }

/-- A well-shaped input with `n_orders = 1`, `n_lines = 1`: every array
has exactly the documented shape. -/
def wellShapedData : InputData :=
  { n_orders := 1, n_lines := 1, n_timeslots := 4, n_workers := 1
    processing_time := [[2]]
    setup_time := [[[1]]]
    initial_inventory := [0]
    reserved_capacity := 0
    due_date := [3]
    priority := [1] }

/-- `wellShapedData` with a much larger horizon (`n_timeslots = 50000`)
and otherwise identical arrays. -/
def horizonVariantData : InputData :=
  { wellShapedData with n_timeslots := 50000 }

/-- An input declaring one order and one line whose `processing_time`
array is empty (too small for the declared counts). -/
def emptyPTData : InputData :=
  { wellShapedData with processing_time := [] }

/-- The parameter tables `define_parameters` produces for
`wellShapedData`. -/
def wsParams : Params :=
  { p := [[2]], s := [[[1]]], inv0 := [0], alpha := 0,
    due := [3], priority := [1], M := 10000 }

/-- The Big-M value held by a successfully constructed model. -/
def bigMOf (d : InputData) : Option ℚ :=
  match define_parameters d with
  | .ok ps => some ps.M
  | .error _ => none

/-! ### Big-M parameters

`src/packing_model_simple/parameters.py` initialises `model.M` with
the literal `10000` (the same literal appears in
`src/simple_model/packing_model_problem_4_1/parameters.py`), and this
`M` is the one used by the has-inventory indicator constraints of
`src/packing_model_simple/constraints/shipping.py`
(`inv >= 1 - M*(1 - hasinv)` and `inv <= M*hasinv`).
`src/project2/src/simple_packing_model/parameters.py` instead sets
`model.M = 10 * T_max` from the planning horizon `T_max`. -/

/-- `model.M` of `src/project2/src/simple_packing_model/parameters.py`:
`initialize=10 * T_max`. -/
def project2M (T_max : ℚ) : ℚ := 10 * T_max

/-- `has_inventory_upper_rule` of
`src/packing_model_simple/constraints/shipping.py`:
`inv(i,t) <= M * hasinv(i,t)`. -/
def HasInvUpper (M : ℚ) (inv hasinv : ℕ → ℕ → ℕ) (i t : ℕ) : Prop :=
  (inv i t : ℚ) ≤ M * hasinv i t

/-- `has_inventory_lower_rule` of
`src/packing_model_simple/constraints/shipping.py`:
`inv(i,t) >= 1 - M * (1 - hasinv(i,t))`. -/
def HasInvLower (M : ℚ) (inv hasinv : ℕ → ℕ → ℕ) (i t : ℕ) : Prop :=
  1 - M * (1 - (hasinv i t : ℚ)) ≤ (inv i t : ℚ)

/-! ### Package import structure of `packing_model_simple`

`src/packing_model_simple/constraints/__init__.py` executes
`from .assignment import define_assignment_constraints` (then imports
`capacity`, `shipping`, `otif`, `wip`, `workforce`), but the directory
`src/packing_model_simple/constraints/` contains only the modules
`capacity`, `otif`, `shipping`, `wip`, `workforce` (besides
`__init__`).  `src/packing_model_simple/model.py` begins with
`from .constraints import (...)` and
`src/packing_model_simple/__init__.py` runs
`from .model import PackingScheduleModelSimple`, so constructing
`PackingScheduleModelSimple` first resolves these imports, before
`__init__` can call `define_parameters` or any constraint function.
A missing submodule raises `ModuleNotFoundError`, a subclass of
`ImportError`. -/

/-- The submodules actually present in
`src/packing_model_simple/constraints/`. -/
def constraintsModulesPresent : List String :=
  ["capacity", "otif", "shipping", "wip", "workforce"]

/-- The submodules imported, in order, by
`src/packing_model_simple/constraints/__init__.py`. -/
def constraintsInitImports : List String :=
  ["assignment", "capacity", "shipping", "otif", "wip", "workforce"]

/-- Resolve a sequence of relative imports against the modules present:
the first name not present raises `ModuleNotFoundError` (an
`ImportError`) naming that module. -/
def resolveImports (present imports : List String) : Except String Unit :=
  match imports.find? (fun n => ¬ present.contains n) with
  | some missing => .error missing
  | none => .ok ()

/-- Construction of `PackingScheduleModelSimple`: resolving the
constraint-package imports precedes `define_parameters` and every
constraint definition, so the whole construction is gated on
`resolveImports`. -/
def constructSimpleModel (d : InputData) : Except String Params :=
  match resolveImports constraintsModulesPresent constraintsInitImports with
  | .error missing => .error missing
  | .ok () =>
      match define_parameters d with
      | .error _ => .error "ParamError"
      | .ok ps => .ok ps

/-! ### Solver result dictionaries

Embedding of the result-dictionary logic of the two `solve` methods.
`PackingScheduleModelSimple.solve` (`src/packing_model_simple/model.py`)
loads the solver's variable values when the termination condition is
`optimal` or `feasible` and sets `objective_value` under the same
condition, else `None`.  `PackingScheduleModel.solve`
(`src/packing_schedule_model.py`) initialises
`objective_value: None` and overwrites it only when the termination
condition is exactly `optimal`. -/

/-- Solver termination conditions distinguished by the code. -/
inductive Termination where
  | optimal : Termination
  | feasible : Termination
  | infeasible : Termination
  | unknown : Termination
deriving DecidableEq, Repr

/-- What a `solve` call returns, plus whether the incumbent's variable
values were loaded into the model (enabling `get_solution`). -/
structure SolveResult where
  status : Termination
  objective_value : Option ℚ
  loaded : Bool
deriving DecidableEq, Repr

/-- `PackingScheduleModelSimple.solve` of
`src/packing_model_simple/model.py`: vars are loaded and
`objective_value` is filled for termination in
`[TerminationCondition.optimal, TerminationCondition.feasible]`. -/
def simpleSolveResult (term : Termination) (obj : ℚ) : SolveResult :=
  { status := term
    objective_value :=
      if term = .optimal ∨ term = .feasible then some obj else none
    loaded := term = .optimal ∨ term = .feasible }

/-- `PackingScheduleModel.solve` of `src/packing_schedule_model.py`:
`solution_info['objective_value']` starts as `None` and is set only
when `termination_condition == TerminationCondition.optimal`; the
default `solver.solve` call leaves solutions loaded. -/
def monolithSolveResult (term : Termination) (obj : ℚ) : SolveResult :=
  { status := term
    objective_value := if term = .optimal then some obj else none
    loaded := true }

/-! ### Concrete solution slices used to instantiate the theorems -/

/-- A concrete assignment: order 1 starts on line 1 at time 2, and no
other indicator is set. -/
def xOne : ℕ → ℕ → ℕ → ℕ :=
  fun i j t => if i = 1 ∧ j = 1 ∧ t = 2 then 1 else 0

/-- Constant processing time parameter `p(i,j) = 2`. -/
def pTwo : ℕ → ℕ → ℚ := fun _ _ => 2

/-- Every line flagged as in use. -/
def uOne : ℕ → ℕ := fun _ => 1

/-- A start-time variable matching `xOne`: every order starts at 2. -/
def tsW : ℕ → ℕ := fun _ => 2

/-- A completion-time variable matching `xOne` with processing time 2:
every order completes at 4. -/
def tcW : ℕ → ℕ := fun _ => 4

/-- A concrete inventory series for one order over the horizon `T = 2`:
`inv(1,0) = 1`, `inv(1,1) = 2`, `inv(1,2) = 1`. -/
def invW : ℕ → ℕ → ℕ :=
  fun _ t => if t = 0 then 1 else if t = 1 then 2 else 1

/-- Production completing only at `t = 1`. -/
def prodW : ℕ → ℕ → ℕ := fun _ t => if t = 1 then 1 else 0

/-- A shipment only at `t = 2`. -/
def shipW : ℕ → ℕ → ℕ := fun _ t => if t = 2 then 1 else 0

/-- Initial inventory of one unit. -/
def inv0W : ℕ → ℕ := fun _ => 1

/-! ## Helper lemmas -/

/-- An `Except` is `isOk` iff it is an `ok`. -/
theorem except_isOk_iff {α : Type} (e : Except ParamError α) :
    e.isOk = true ↔ ∃ a, e = .ok a := by
  cases e <;> simp [Except.isOk, Except.toBool]

/-- If every read in the list succeeds, the sequence of reads
succeeds. -/
theorem seqReads_isOk {α : Type} (f : ℕ → Except ParamError α)
    (l : List ℕ) (h : ∀ i ∈ l, (f i).isOk = true) :
    (seqReads f l).isOk = true := by
  induction l with
  | nil => rfl
  | cons i is ih =>
      obtain ⟨a, ha⟩ := (except_isOk_iff _).mp (h i (by simp))
      obtain ⟨as, has⟩ :=
        (except_isOk_iff _).mp (ih (fun x hx => h x (by simp [hx])))
      simp [seqReads, ha, has, Except.isOk, Except.toBool]

/-- A failing sequence of reads fails because one read fails. -/
theorem seqReads_error {α : Type} (f : ℕ → Except ParamError α)
    (l : List ℕ) (e : ParamError) (h : seqReads f l = .error e) :
    ∃ i ∈ l, f i = .error e := by
  induction l with
  | nil => simp [seqReads] at h
  | cons i is ih =>
      rw [seqReads] at h
      cases hfi : f i with
      | error e' =>
          rw [hfi] at h
          simp only [Except.error.injEq] at h
          exact ⟨i, by simp, by rw [hfi, h]⟩
      | ok a =>
          rw [hfi] at h
          cases hrest : seqReads f is with
          | error e' =>
              rw [hrest] at h
              simp only [Except.error.injEq] at h
              obtain ⟨x, hx, hfx⟩ := ih (by rw [hrest, h])
              exact ⟨x, by simp [hx], hfx⟩
          | ok as => rw [hrest] at h; cases h

/-- `readRow` succeeds when the row is long enough. -/
theorem readRow_isOk (row : List ℚ) (m : ℕ) (h : m ≤ row.length) :
    (readRow row m).isOk = true := by
  simp [readRow, h, Except.isOk, Except.toBool]

/-- The only error `readRow` can produce is `indexError`. -/
theorem readRow_error (row : List ℚ) (m : ℕ) (e : ParamError)
    (h : readRow row m = .error e) : e = .indexError := by
  unfold readRow at h
  split at h
  · cases h
  · simp only [Except.error.injEq] at h; exact h.symm

/-- `reads2` succeeds on an array with at least `n` rows of length at
least `m`. -/
theorem reads2_isOk (arr : List (List ℚ)) (n m : ℕ)
    (hn : n ≤ arr.length) (hm : ∀ row ∈ arr, m ≤ row.length) :
    (reads2 arr n m).isOk = true := by
  unfold reads2
  split
  · rfl
  · apply seqReads_isOk
    intro i hi
    rw [List.mem_range] at hi
    cases hrow : arr.get? i with
    | none => rw [List.get?_eq_none] at hrow; omega
    | some row =>
        simp only [hrow]
        exact readRow_isOk _ m (hm _ (List.get?_mem hrow))

/-- The only error `reads2` can produce is `indexError`. -/
theorem reads2_error (arr : List (List ℚ)) (n m : ℕ) (e : ParamError)
    (h : reads2 arr n m = .error e) : e = .indexError := by
  unfold reads2 at h
  split at h
  · cases h
  · obtain ⟨i, _, hfi⟩ := seqReads_error _ _ _ h
    cases hrow : arr.get? i with
    | none => rw [hrow] at hfi; simp only [Except.error.injEq] at hfi
              exact hfi.symm
    | some row => rw [hrow] at hfi; exact readRow_error row m e hfi

/-- `reads3` succeeds on an array of at least the declared extent in
every dimension. -/
theorem reads3_isOk (arr : List (List (List ℚ))) (n k m : ℕ)
    (hn : n ≤ arr.length)
    (hk : ∀ sub ∈ arr, k ≤ sub.length ∧ ∀ row ∈ sub, m ≤ row.length) :
    (reads3 arr n k m).isOk = true := by
  unfold reads3
  split
  · rfl
  · apply seqReads_isOk
    intro i hi
    rw [List.mem_range] at hi
    cases hrow : arr.get? i with
    | none => rw [List.get?_eq_none] at hrow; omega
    | some sub =>
        simp only [hrow]
        obtain ⟨hk1, hk2⟩ := hk _ (List.get?_mem hrow)
        exact reads2_isOk _ k m hk1 hk2

/-- The only error `reads3` can produce is `indexError`. -/
theorem reads3_error (arr : List (List (List ℚ))) (n k m : ℕ)
    (e : ParamError) (h : reads3 arr n k m = .error e) : e = .indexError := by
  unfold reads3 at h
  split at h
  · cases h
  · obtain ⟨i, _, hfi⟩ := seqReads_error _ _ _ h
    cases hrow : arr.get? i with
    | none => rw [hrow] at hfi; simp only [Except.error.injEq] at hfi
              exact hfi.symm
    | some sub => rw [hrow] at hfi; exact reads2_error sub k m e hfi

/-- `define_parameters` can only fail with `indexError`. -/
theorem define_parameters_error (d : InputData) (e : ParamError)
    (h : define_parameters d = .error e) : e = .indexError := by
  unfold define_parameters at h
  cases h1 : reads2 d.processing_time d.n_orders d.n_lines with
  | error e1 =>
      rw [h1] at h; simp only [Except.error.injEq] at h
      exact h ▸ reads2_error _ _ _ _ h1
  | ok p =>
    rw [h1] at h
    cases h2 : reads3 d.setup_time d.n_orders d.n_orders d.n_lines with
    | error e2 =>
        rw [h2] at h; simp only [Except.error.injEq] at h
        exact h ▸ reads3_error _ _ _ _ _ h2
    | ok s =>
      rw [h2] at h
      cases h3 : reads1 d.initial_inventory d.n_orders with
      | error e3 =>
          rw [h3] at h; simp only [Except.error.injEq] at h
          exact h ▸ readRow_error _ _ _ h3
      | ok inv0 =>
        rw [h3] at h
        cases h4 : reads1 d.due_date d.n_orders with
        | error e4 =>
            rw [h4] at h; simp only [Except.error.injEq] at h
            exact h ▸ readRow_error _ _ _ h4
        | ok due =>
          rw [h4] at h
          cases h5 : reads1 d.priority d.n_orders with
          | error e5 =>
              rw [h5] at h; simp only [Except.error.injEq] at h
              exact h ▸ readRow_error _ _ _ h5
          | ok prio => rw [h5] at h; cases h

/-- A successfully built parameter set always carries `M = 10000`
(the literal in `src/packing_model_simple/parameters.py`). -/
theorem define_parameters_M (d : InputData) (ps : Params)
    (h : define_parameters d = .ok ps) : ps.M = 10000 := by
  unfold define_parameters at h
  cases h1 : reads2 d.processing_time d.n_orders d.n_lines with
  | error e1 => rw [h1] at h; cases h
  | ok p =>
    rw [h1] at h
    cases h2 : reads3 d.setup_time d.n_orders d.n_orders d.n_lines with
    | error e2 => rw [h2] at h; cases h
    | ok s =>
      rw [h2] at h
      cases h3 : reads1 d.initial_inventory d.n_orders with
      | error e3 => rw [h3] at h; cases h
      | ok inv0 =>
        rw [h3] at h
        cases h4 : reads1 d.due_date d.n_orders with
        | error e4 => rw [h4] at h; cases h
        | ok due =>
          rw [h4] at h
          cases h5 : reads1 d.priority d.n_orders with
          | error e5 => rw [h5] at h; cases h
          | ok prio =>
              rw [h5] at h
              simp only [Except.ok.injEq] at h
              rw [← h]

/-- A sum of 0/1 values equalling one means exactly one index
carries a one. -/
theorem card_filter_eq_one_of_sum_eq_one {α : Type} (s : Finset α)
    (f : α → ℕ) (hb : ∀ a ∈ s, f a ≤ 1) (hs : ∑ a ∈ s, f a = 1) :
    (s.filter (fun a => f a = 1)).card = 1 := by
  have hcongr : (s.filter (fun a => f a = 1)).card = ∑ a ∈ s, f a := by
    rw [Finset.card_filter]
    apply Finset.sum_congr rfl
    intro a ha
    rcases Nat.le_one_iff_eq_zero_or_eq_one.mp (hb a ha) with h | h <;> simp [h]
  rw [hcongr, hs]

/-- Closed form of the inventory recurrence: within the horizon,
inventory is the initial stock plus the accumulated production minus
the accumulated shipments. -/
theorem inv_closed_form (nTime : ℕ) (inv prod ship : ℕ → ℕ → ℕ)
    (inv0 : ℕ → ℕ) (i : ℕ) (h : WipFeasible nTime inv prod ship inv0 i) :
    ∀ t ∈ rng nTime, (inv i t : ℤ) =
      inv0 i + ∑ s ∈ Finset.Icc 1 t, ((prod i s : ℤ) - ship i s) := by
  obtain ⟨h0, hbal⟩ := h
  rw [InitialInventory] at h0
  intro t
  induction t with
  | zero => intro ht; rw [rng, Finset.mem_Icc] at ht; omega
  | succ k ih =>
      intro ht
      rw [rng, Finset.mem_Icc] at ht
      have hbal' := hbal (k + 1) (by rw [rng, Finset.mem_Icc]; omega)
      rw [InventoryBalance] at hbal'
      simp only [Nat.add_sub_cancel] at hbal'
      by_cases hk : k = 0
      · subst hk
        rw [hbal', h0, Finset.Icc_self, Finset.sum_singleton]
        ring
      · have ihk := ih (by rw [rng, Finset.mem_Icc]; omega)
        rw [hbal', ihk, Finset.sum_Icc_succ_top (by omega : 1 ≤ k + 1)]
        ring

/-! ## Claim theorems -/

/-- C1 (counterexample): two feasible OTIF solution slices violate the
claimed biconditional and equality.  `otifSlack1` satisfies every
constraint of `add_otif_constraints` yet has `late = 1` with
`lateness = 0` (the Big-M pair does not force `late = 1 → lateness > 0`);
`otifSlack2` is feasible with `lateness = 7` although
`completion = due`, so feasibility does not force
`lateness = max 0 (completion − due)`. -/
theorem C1_counterexample :
    (OtifFeasible otifSlack1 ∧ ¬ OtifSpecClaim otifSlack1) ∧
    (OtifFeasible otifSlack2 ∧ ¬ OtifSpecClaim otifSlack2) := by
  refine ⟨⟨?_, ?_⟩, ?_, ?_⟩ <;> decide

/-- C1 (amended): in every feasible solution of the OTIF constraint
block, the two Big-M indicator constraints force the one-sided
implications: positive lateness forces `late = 1`, `late = 0` forces
`lateness = 0`, `lateness` is at least `max 0 (completion − due)`, and
`late = 1` forces `completion ≥ due`.  The converse direction of the
biconditional and the equality with the max hold only at optimality,
not at feasibility. -/
theorem C1_late_indicator_one_sided (s : OtifSol) (h : OtifFeasible s) :
    (0 < s.lateness → s.late = 1) ∧
    (s.late = 0 → s.lateness = 0) ∧
    max 0 (s.completion - s.due) ≤ s.lateness ∧
    (s.late = 1 → s.due ≤ s.completion) := by
  obtain ⟨hdom, hlat, _, ⟨_, _⟩, hll, _, hup, hlo⟩ := h
  rcases hdom with h0 | h1
  · rw [h0, mul_zero] at hup
    refine ⟨fun hpos => ?_, fun _ => ?_, max_le hlat hll, fun hl1 => ?_⟩
    · omega
    · omega
    · rw [h0] at hl1; omega
  · rw [h1, sub_self, mul_zero, sub_zero] at hlo
    exact ⟨fun _ => h1, fun h0 => by rw [h1] at h0; omega,
      max_le hlat hll, fun _ => hlo⟩

/-- C1 (witness): the amended theorem applied to the concrete feasible
slice `otifSlack2`. -/
theorem C1_witness :
    (0 < otifSlack2.lateness → otifSlack2.late = 1) ∧
    (otifSlack2.late = 0 → otifSlack2.lateness = 0) ∧
    max 0 (otifSlack2.completion - otifSlack2.due) ≤ otifSlack2.lateness ∧
    (otifSlack2.late = 1 → otifSlack2.due ≤ otifSlack2.completion) :=
  C1_late_indicator_one_sided otifSlack2 (by decide)

/-- C2 (counterexample): `oversizedData` declares one order and one
line but supplies arrays one element larger in every data dimension;
its shapes disagree with the declared counts, yet `define_parameters`
succeeds (silently truncating), instead of failing with a
`DimensionMismatch` error. -/
theorem C2_counterexample :
    ¬ shapesOk oversizedData ∧
    define_parameters oversizedData = .ok wsParams := by
  exact ⟨by decide, by rfl⟩

/-- C2 (amended): the parameter binder performs no shape validation at
all.  A well-shaped input never raises; no input whatsoever can
produce a `DimensionMismatch` error; and an input whose
`processing_time` array is too small for the declared counts fails
with numpy's `IndexError` during parameter initialization (before any
constraint is built). -/
theorem C2_binder_has_no_shape_validation (d : InputData) :
    (shapesOk d → (define_parameters d).isOk = true) ∧
    define_parameters d ≠ .error .dimensionMismatch ∧
    (1 ≤ d.n_orders → 1 ≤ d.n_lines → d.processing_time = [] →
      define_parameters d = .error .indexError) := by
  refine ⟨?_, ?_, ?_⟩
  · intro hs
    obtain ⟨h1, h2, h3, h4, h5, h6, h7⟩ := hs
    obtain ⟨a1, e1⟩ := (except_isOk_iff _).mp
      (reads2_isOk d.processing_time d.n_orders d.n_lines (le_of_eq h1.symm)
        (fun row hr => le_of_eq (h2 row hr).symm))
    obtain ⟨a2, e2⟩ := (except_isOk_iff _).mp
      (reads3_isOk d.setup_time d.n_orders d.n_orders d.n_lines
        (le_of_eq h3.symm)
        (fun sub hs' => ⟨le_of_eq (h4 sub hs').1.symm,
          fun row hr => le_of_eq ((h4 sub hs').2 row hr).symm⟩))
    obtain ⟨a3, e3⟩ := (except_isOk_iff _).mp
      (readRow_isOk d.initial_inventory d.n_orders (le_of_eq h5.symm))
    obtain ⟨a4, e4⟩ := (except_isOk_iff _).mp
      (readRow_isOk d.due_date d.n_orders (le_of_eq h6.symm))
    obtain ⟨a5, e5⟩ := (except_isOk_iff _).mp
      (readRow_isOk d.priority d.n_orders (le_of_eq h7.symm))
    simp [define_parameters, e1, e2, e3, e4, e5, reads1,
      Except.isOk, Except.toBool]
  · intro hc
    have := define_parameters_error d _ hc
    cases this
  · intro ho hl hpt
    have h2 : reads2 d.processing_time d.n_orders d.n_lines =
        .error .indexError := by
      rw [hpt]
      unfold reads2
      have hm : ¬ d.n_lines = 0 := by omega
      rw [if_neg hm]
      obtain ⟨n', hn⟩ : ∃ n', d.n_orders = n' + 1 :=
        ⟨d.n_orders - 1, by omega⟩
      rw [hn, List.range_succ_eq_map]
      simp [seqReads]
    simp [define_parameters, h2]

/-- C2 (witness): the amended theorem at two concrete inputs — the
well-shaped `wellShapedData` succeeds, and `emptyPTData` (declared
1×1 but with an empty `processing_time`) fails with `indexError`. -/
theorem C2_witness :
    (define_parameters wellShapedData).isOk = true ∧
    define_parameters emptyPTData = .error .indexError := by
  constructor
  · exact (C2_binder_has_no_shape_validation wellShapedData).1 (by decide)
  · exact (C2_binder_has_no_shape_validation emptyPTData).2.2
      (by decide) (by decide) (by decide)

/-- C3 (counterexample): the Big-M bound the `packing_model_simple`
binder installs is the hard-coded literal `10000`, independent of the
input data — two inputs whose horizons differ by a factor of 12500
receive the same `M`.  This is the `M` consumed by the has-inventory
indicator constraints of `constraints/shipping.py`. -/
theorem C3_counterexample :
    wellShapedData.n_timeslots ≠ horizonVariantData.n_timeslots ∧
    bigMOf wellShapedData = some 10000 ∧
    bigMOf horizonVariantData = some 10000 := by
  exact ⟨by decide, by rfl, by rfl⟩

/-- C3 (amended): the Big-M treatment differs between variants: the
`project2` binder derives `M = 10 · T_max` from the planning horizon,
but every model `packing_model_simple` builds carries the hard-coded
`M = 10000` (likewise `simple_model/packing_model_problem_4_1`), so it
is not true that every indicator Big-M is horizon-derived. -/
theorem C3_bigM_amended (d : InputData) (ps : Params)
    (h : define_parameters d = .ok ps) (T_max : ℚ) :
    ps.M = 10000 ∧ project2M T_max = 10 * T_max :=
  ⟨define_parameters_M d ps h, rfl⟩

/-- C3 (witness): the amended theorem at the concrete input
`wellShapedData` with `T_max = 7`. -/
theorem C3_witness : wsParams.M = 10000 ∧ project2M 7 = 10 * 7 :=
  C3_bigM_amended wellShapedData wsParams (by rfl) 7

/-- C4: the directory `src/packing_model_simple/constraints/` has no
module named `assignment`, yet the package `__init__` imports it
first; for every input, constructing `PackingScheduleModelSimple`
therefore fails with `ModuleNotFoundError` (an `ImportError`) naming
`assignment`, before `define_parameters` or any constraint function
can run. -/
theorem C4_import_always_fails :
    (∀ d : InputData, constructSimpleModel d = .error "assignment") ∧
    "assignment" ∉ constraintsModulesPresent :=
  ⟨fun _ => rfl, by decide⟩

/-- C10 (counterexample): `PackingScheduleModel.solve` in
`src/packing_schedule_model.py` — one of the two `solve`
implementations the claim covers — returns
`objective_value = None` when the termination condition is `feasible`,
because it fills in the objective only for `optimal`. -/
theorem C10_counterexample :
    (monolithSolveResult .feasible 42).status = .feasible ∧
    (monolithSolveResult .feasible 42).objective_value = none :=
  ⟨rfl, rfl⟩

/-- C10 (amended): `PackingScheduleModelSimple.solve` behaves as
claimed — on a `feasible` termination it loads the incumbent's
variable values and reports its objective value — but the monolithic
`PackingScheduleModel.solve` reports an objective only on `optimal`,
returning `None` for a `feasible` (e.g. time-limited) termination. -/
theorem C10_feasible_result_amended (obj : ℚ) :
    (simpleSolveResult .feasible obj).objective_value = some obj ∧
    (simpleSolveResult .feasible obj).loaded = true ∧
    (simpleSolveResult .optimal obj).objective_value = some obj ∧
    (monolithSolveResult .feasible obj).objective_value = none :=
  ⟨rfl, rfl, rfl, rfl⟩

/-- C5: in every feasible solution (binary assignment variables
satisfying `one_assignment_rule`), every order is assigned to exactly
one `(line, start-time)` pair. -/
theorem C5_scheduled_exactly_once (nOrders nLines nTime : ℕ)
    (x : ℕ → ℕ → ℕ → ℕ)
    (hb : ∀ i ∈ rng nOrders, ∀ j ∈ rng nLines, ∀ t ∈ rng nTime, x i j t ≤ 1)
    (ha : ∀ i ∈ rng nOrders, OneAssignment nLines nTime x i) :
    ∀ i ∈ rng nOrders, (assignedPairs nLines nTime x i).card = 1 := by
  intro i hi
  rw [assignedPairs]
  apply card_filter_eq_one_of_sum_eq_one
  · rintro ⟨j, t⟩ hq
    rw [Finset.mem_product] at hq
    exact hb i hi j hq.1 t hq.2
  · rw [Finset.sum_product]
    exact ha i hi

/-- C5 (witness): the theorem at the concrete one-order instance
`xOne` (one line, three time slots). -/
theorem C5_witness :
    (∀ i ∈ rng 1, OneAssignment 1 3 xOne i) ∧
    (assignedPairs 1 3 xOne 1).card = 1 :=
  ⟨by decide,
    C5_scheduled_exactly_once 1 1 3 xOne (by decide) (by decide) 1 (by decide)⟩

/-- C6: in every feasible solution (binary `x` and `u` satisfying
`line_capacity_rule` for line `j` at instant `tau`), at most one
order's scheduled interval `[start, start + processing_time)` covers
`tau` on line `j`. -/
theorem C6_no_line_overlap (nOrders nTime : ℕ) (p : ℕ → ℕ → ℚ)
    (x : ℕ → ℕ → ℕ → ℕ) (u : ℕ → ℕ) (j tau : ℕ)
    (hu : u j ≤ 1)
    (hcap : LineCapacity nOrders nTime p x u j tau) :
    (coveringOrders nOrders nTime p x j tau).card ≤ 1 := by
  calc (coveringOrders nOrders nTime p x j tau).card
      = ∑ _i ∈ coveringOrders nOrders nTime p x j tau, 1 :=
        Finset.card_eq_sum_ones _
    _ ≤ ∑ i ∈ coveringOrders nOrders nTime p x j tau,
          ∑ t ∈ (rng nTime).filter (fun t => covers p i j t tau), x i j t := by
        apply Finset.sum_le_sum
        intro i hi
        rw [coveringOrders, Finset.mem_filter] at hi
        obtain ⟨-, t, ht, hx1, hcov⟩ := hi
        calc 1 = x i j t := hx1.symm
          _ ≤ ∑ t' ∈ (rng nTime).filter (fun t' => covers p i j t' tau),
                x i j t' :=
              Finset.single_le_sum (fun t' _ => Nat.zero_le _)
                (Finset.mem_filter.mpr ⟨ht, hcov⟩)
    _ ≤ ∑ i ∈ rng nOrders,
          ∑ t ∈ (rng nTime).filter (fun t => covers p i j t tau), x i j t :=
        Finset.sum_le_sum_of_subset (Finset.filter_subset _ _)
    _ ≤ u j := hcap
    _ ≤ 1 := hu

/-- C6 (witness): the theorem at a concrete two-order instance where
order 1 runs on line 1 during `[2, 4)` and instant `tau = 2` is
covered once. -/
theorem C6_witness :
    LineCapacity 2 3 pTwo xOne uOne 1 2 ∧
    (coveringOrders 2 3 pTwo xOne 1 2).card ≤ 1 := by
  have hcap : LineCapacity 2 3 pTwo xOne uOne 1 2 := by
    simp [LineCapacity, rng, Finset.sum_filter, covers, xOne, uOne, pTwo]
    decide
  exact ⟨hcap, C6_no_line_overlap 2 3 pTwo xOne uOne 1 2 (by decide) hcap⟩

/-- C7: in every feasible solution in which order `i` is assigned
exactly once — at line `js`, start `ts` — the start-time and
completion-time defining constraints force
`completion(i) = start(i) + p(i, js)`. -/
theorem C7_completion_eq_start_plus_processing
    (nLines nTime : ℕ) (p : ℕ → ℕ → ℚ) (x : ℕ → ℕ → ℕ → ℕ)
    (timestart timecompletion : ℕ → ℕ) (i js ts : ℕ)
    (hjs : js ∈ rng nLines) (hts : ts ∈ rng nTime)
    (hone : x i js ts = 1)
    (hzero : ∀ j ∈ rng nLines, ∀ t ∈ rng nTime,
      (j, t) ≠ (js, ts) → x i j t = 0)
    (hstart : StartTimeEq nLines nTime x timestart i)
    (hcompl : CompletionTimeEq nLines nTime p x timecompletion i) :
    (timecompletion i : ℚ) = (timestart i : ℚ) + p i js := by
  have key : ∀ f : ℕ → ℕ → ℚ,
      (∑ j ∈ rng nLines, ∑ t ∈ rng nTime, f j t * x i j t) = f js ts := by
    intro f
    rw [← Finset.sum_product']
    rw [Finset.sum_eq_single ((js, ts) : ℕ × ℕ)]
    · rw [hone]; norm_num
    · rintro ⟨j, t⟩ hq hne
      rw [Finset.mem_product] at hq
      rw [hzero j hq.1 t hq.2 hne]
      norm_num
    · intro habs
      exact absurd (Finset.mem_product.mpr ⟨hjs, hts⟩) habs
  have hS : (timestart i : ℚ) = ts := by
    rw [StartTimeEq] at hstart
    rw [hstart]
    exact key (fun _ t => (t : ℚ))
  have hC : (timecompletion i : ℚ) = ts + p i js := by
    rw [CompletionTimeEq] at hcompl
    rw [hcompl]
    exact key (fun j t => (t : ℚ) + p i j)
  rw [hS, hC]

/-- C7 (witness): the theorem at the concrete instance `xOne` with
`p = 2`: start 2, completion 4. -/
theorem C7_witness :
    StartTimeEq 1 3 xOne tsW 1 ∧ CompletionTimeEq 1 3 pTwo xOne tcW 1 ∧
    (tcW 1 : ℚ) = (tsW 1 : ℚ) + pTwo 1 1 := by
  have hstart : StartTimeEq 1 3 xOne tsW 1 := by
    simp [StartTimeEq, rng, xOne, tsW]
  have hcompl : CompletionTimeEq 1 3 pTwo xOne tcW 1 := by
    simp [CompletionTimeEq, rng, xOne, tcW, pTwo]
    norm_num
  exact ⟨hstart, hcompl,
    C7_completion_eq_start_plus_processing 1 3 pTwo xOne tsW tcW 1 1 2
      (by decide) (by decide) (by decide) (by decide) hstart hcompl⟩

/-- C8: in every feasible solution, the inventory series of each
order is non-negative at every slot, obeys the balance recurrence
`inv(t) = inv(t-1) + prod(t) - ship(t)` on the whole horizon, is
seeded by `inv(0) = inv0`, and consequently equals the initial stock
plus accumulated production minus accumulated shipments. -/
theorem C8_inventory_balance (nTime : ℕ) (inv prod ship : ℕ → ℕ → ℕ)
    (inv0 : ℕ → ℕ) (i : ℕ) (h : WipFeasible nTime inv prod ship inv0 i) :
    inv i 0 = inv0 i ∧
    ∀ t ∈ rng nTime, 0 ≤ (inv i t : ℤ) ∧
      (inv i t : ℤ) = inv i (t - 1) + prod i t - ship i t ∧
      (inv i t : ℤ) =
        inv0 i + ∑ s ∈ Finset.Icc 1 t, ((prod i s : ℤ) - ship i s) :=
  ⟨h.1, fun t ht =>
    ⟨Int.natCast_nonneg _, h.2 t ht,
      inv_closed_form nTime inv prod ship inv0 i h t ht⟩⟩

/-- C8 (witness): the theorem at the concrete series `invW` over a
two-slot horizon. -/
theorem C8_witness :
    WipFeasible 2 invW prodW shipW inv0W 1 ∧
    (invW 1 2 : ℤ) = invW 1 1 + prodW 1 2 - shipW 1 2 :=
  ⟨by decide,
    ((C8_inventory_balance 2 invW prodW shipW inv0W 1 (by decide)).2
      2 (by decide)).2.1⟩

/-- C9: the right-hand side of `production_rule` sums the assignment
indicator only over lines whose offset slot `t - p(i,j)` is at least
1 (an out-of-range offset contributes zero to the sum), and every
offset actually accessed lies inside the horizon `1..T` — never at a
non-positive slot. -/
theorem C9_production_offset_in_horizon (nLines T : ℕ) (p : ℕ → ℕ → ℚ)
    (x : ℕ → ℕ → ℕ → ℕ) (i t : ℕ) (ht : t ∈ rng T) :
    prodRHS nLines p x i t =
      (∑ j ∈ rng nLines,
        if pInt p i j + 1 ≤ t then x i j (t - pInt p i j) else 0) ∧
    ∀ j ∈ rng nLines, pInt p i j + 1 ≤ t → t - pInt p i j ∈ rng T := by
  constructor
  · rw [prodRHS, Finset.sum_filter]
  · intro j _ hj
    rw [rng, Finset.mem_Icc] at ht ⊢
    omega

/-- C9 (witness): the theorem at the concrete instance `xOne`,
`p = 2`, horizon 3, slot `t = 3`. -/
theorem C9_witness :
    prodRHS 1 pTwo xOne 1 3 =
      (∑ j ∈ rng 1,
        if pInt pTwo 1 j + 1 ≤ 3 then xOne 1 j (3 - pInt pTwo 1 j) else 0) ∧
    ∀ j ∈ rng 1, pInt pTwo 1 j + 1 ≤ 3 → 3 - pInt pTwo 1 j ∈ rng 3 :=
  C9_production_offset_in_horizon 1 3 pTwo xOne 1 3 (by decide)

end PackingSchedule
